import Mathlib

/-!
Verification of the extraction core of `src/scraper.py` (SmartPrice-Analytics).

The Python code is shallowly embedded: pure helper functions become Lean
functions over `List Char` / `String`; Python floats are modeled as exact
rationals (`ℚ`); the BeautifulSoup document tree is modeled as a tree of
nodes carrying a tag name, attribute key/value pairs, own visible text and
child nodes.  The compiled regular expressions appearing in the source are
all either alternations of space-free literals (matched case-insensitively
as substrings) or small digit patterns; each is embedded as an executable
matcher whose equivalence with the Python regex semantics is argued in the
comments next to it.  All definitions are structurally recursive so that
concrete runs reduce inside the kernel.
-/

attribute [local semireducible] Rat.add Rat.mul Rat.inv Rat.sub

namespace Scraper

/-! ## String helpers (models of Python primitives) -/

/-- Model of Python `pat in s` (substring test) over character lists. -/
def containsSubList (pat : List Char) : List Char → Bool
  | [] => pat.isEmpty
  | c :: cs => pat.isPrefixOf (c :: cs) || containsSubList pat cs

/-- Model of Python `pat in s` on strings. -/
def strContainsSub (s pat : String) : Bool :=
  containsSubList pat.data s.data

/-- Model of Python `str.lower()` (ASCII model; all search literals in the
source are ASCII). -/
def strLower (s : String) : String :=
  String.mk (s.data.map Char.toLower)

/-- Drop whitespace at both ends (model of Python `str.strip()`). -/
def trimChars (l : List Char) : List Char :=
  ((l.dropWhile Char.isWhitespace).reverse.dropWhile Char.isWhitespace).reverse

/-- Model of Python `str.strip()` on strings. -/
def strStrip (s : String) : String :=
  String.mk (trimChars s.data)

/-- Python truthiness of an optional string: `None` and `""` are falsy. -/
def truthyStr : Option String → Bool
  | none => false
  | some s => !s.data.isEmpty

/-- Numeric value of a list of decimal digits, most significant first. -/
def digitsVal (l : List Char) : ℕ :=
  l.foldl (fun n c => 10 * n + (c.toNat - 48)) 0

/-- Model of Python `float()` restricted to strings over the alphabet of
digits and `.` — the only strings reaching it in `extract_price` after the
character filter.  Such a string parses iff it has at most one dot and at
least one digit; the value is returned exactly (as a rational). -/
def parseDecimal (l : List Char) : Option ℚ :=
  let intPart := l.takeWhile (fun c => c != '.')
  let rest := l.drop intPart.length
  if !(intPart.all Char.isDigit) then none
  else
    match rest with
    | [] => if intPart.isEmpty then none else some (digitsVal intPart)
    | _ :: fracPart =>
      if fracPart.all Char.isDigit && !(intPart.isEmpty && fracPart.isEmpty) then
        some ((digitsVal intPart : ℚ) + (digitsVal fracPart : ℚ) / (10 : ℚ) ^ fracPart.length)
      else none

/-! ## Field normalizers -/

/-- Lean model of `extract_price` (src/scraper.py lines 56-78):
`re.sub(r"[^\d.,]", "", text.strip())` keeps only digits, dots and commas;
commas are then removed and the remainder is parsed with `float`,
`ValueError` becoming `None`. -/
def extract_price (text : Option String) : Option ℚ :=
  match text with
  | none => none
  | some t =>
    if t.data.isEmpty then none
    else
      let cleaned := (trimChars t.data).filter (fun c => c.isDigit || c == '.' || c == ',')
      let cleaned := cleaned.filter (fun c => c != ',')
      if cleaned.isEmpty then none else parseDecimal cleaned

/-- Attempt to match the regex `(\d+(?:\.\d+)?)\s*%` at the head of `cs`,
returning group 1 (the number).  Greedy maximal munch is equivalent to
Python's backtracking here: shortening the digit run `\d+` puts a digit
where `\.`, `\s` or `%` is required, and dropping or shortening the
optional fractional part puts `.` or a digit where `%` is required, so no
backtracking alternative can succeed when the greedy parse fails. -/
def matchPercentAt (cs : List Char) : Option (List Char) :=
  let ds := cs.takeWhile Char.isDigit
  if ds.isEmpty then none
  else
    let rest := cs.drop ds.length
    let (num, rest2) :=
      match rest with
      | '.' :: r =>
        let fs := r.takeWhile Char.isDigit
        if fs.isEmpty then (ds, rest) else (ds ++ '.' :: fs, r.drop fs.length)
      | _ => (ds, rest)
    match rest2.dropWhile Char.isWhitespace with
    | '%' :: _ => some num
    | _ => none

/-- Leftmost search for `(\d+(?:\.\d+)?)\s*%` (model of `re.search`). -/
def searchPercent : List Char → Option (List Char)
  | [] => none
  | c :: cs =>
    match matchPercentAt (c :: cs) with
    | some g => some g
    | none => searchPercent cs

/-- Leftmost search for `[\d,]+(?:\.\d+)?` (model of `re.search`),
returning the whole match.  The character class run is taken greedily; the
optional fractional part has no following constraint, so no backtracking
is needed. -/
def searchAmount : List Char → Option (List Char)
  | [] => none
  | c :: cs =>
    if c.isDigit || c == ',' then
      let run := (c :: cs).takeWhile (fun x => x.isDigit || x == ',')
      let rest := (c :: cs).drop run.length
      some (match rest with
        | '.' :: r =>
          let fs := r.takeWhile Char.isDigit
          if fs.isEmpty then run else run ++ '.' :: fs
        | _ => run)
    else searchAmount cs

/-- Lean model of `extract_discount` (src/scraper.py lines 81-105). -/
def extract_discount (text : Option String) : Option String :=
  match text with
  | none => none
  | some t =>
    if t.data.isEmpty then none
    else
      match searchPercent t.data with
      | some g => some (String.mk g ++ "%")
      | none =>
        match searchAmount t.data with
        | some m => some ("₹" ++ String.mk (m.filter (fun c => c != ',')))
        | none =>
          if (trimChars t.data).isEmpty then none else some (String.mk (trimChars t.data))

/-- Leftmost search for `(\d(?:\.\d)?)` (model of `re.search` in
`extract_rating`): the first digit, together with one following decimal
digit when present.  The optional group has no following constraint, so
greedy matching equals Python's semantics. -/
def searchRatingNum : List Char → Option (Char × Option Char)
  | [] => none
  | c :: cs =>
    if c.isDigit then
      some (match cs with
        | '.' :: d :: _ => if d.isDigit then (c, some d) else (c, none)
        | _ => (c, none))
    else searchRatingNum cs

/-- Numeric value of a digit character. -/
def digitVal (c : Char) : ℕ := c.toNat - 48

/-- Value of a matched rating numeral (model of `float` on the group). -/
def ratingVal (c : Char) (od : Option Char) : ℚ :=
  match od with
  | none => digitVal c
  | some d => (digitVal c : ℚ) + (digitVal d : ℚ) / 10

/-- Lean model of `extract_rating` (src/scraper.py lines 108-127). -/
def extract_rating (text : Option String) : Option ℚ :=
  match text with
  | none => none
  | some t =>
    if t.data.isEmpty then none
    else
      match searchRatingNum t.data with
      | some (c, od) =>
        let r := ratingVal c od
        if 0 ≤ r ∧ r ≤ 5 then some r else none
      | none => none

/-! ## Document tree model

The spec treats the parsed document as an external capability exposing tag
name, attributes, visible text and descendant traversal; this is the shallow
embedding of that interface as used by the source through BeautifulSoup. -/

mutual

/-- Model of a parsed HTML element (a BeautifulSoup `Tag`): tag name,
attribute key/value pairs (the multi-valued `class` attribute is held as its
space-joined string, which is substring-equivalent for the space-free regex
literals used by the source), the element's own visible text, and its child
elements.  `Node`/`NodeList` are mutually inductive so that the tree
traversals below are structurally recursive and kernel-reducible. -/
inductive Node where
  | mk (tag : String) (attrs : List (String × String)) (text : String) (children : NodeList)

/-- A list of sibling nodes. -/
inductive NodeList where
  | nil
  | cons (n : Node) (ns : NodeList)

end

/-- Tag name of a node. -/
def Node.tagName : Node → String
  | .mk t _ _ _ => t

/-- Attribute key/value pairs of a node. -/
def Node.attrList : Node → List (String × String)
  | .mk _ a _ _ => a

/-- Own (direct) text of a node. -/
def Node.ownText : Node → String
  | .mk _ _ s _ => s

/-- Build a `NodeList` from a `List Node`. -/
def NodeList.ofList : List Node → NodeList
  | [] => .nil
  | n :: ns => .cons n (NodeList.ofList ns)

/-- Convenience constructor for concrete documents. -/
def nodeOf (tag : String) (attrs : List (String × String)) (text : String)
    (children : List Node) : Node :=
  .mk tag attrs text (NodeList.ofList children)

mutual

/-- Pre-order list of all strict descendants of a node (BeautifulSoup
document order, as traversed by `find` / `find_all`). -/
def Node.descendants : Node → List Node
  | .mk _ _ _ children => NodeList.descList children

/-- Descendants of a sibling list, in document order. -/
def NodeList.descList : NodeList → List Node
  | .nil => []
  | .cons n ns => n :: (Node.descendants n ++ NodeList.descList ns)

end

/-- Rendering of an attribute list, part of the model of Python
`str(element)`. -/
def renderAttrs : List (String × String) → String
  | [] => ""
  | (k, v) :: rest => " " ++ k ++ "=\"" ++ v ++ "\"" ++ renderAttrs rest

mutual

/-- Model of Python `str(element)`: an HTML-style rendering of the subtree.
The source only uses it (lowercased) as a substring search space in
`determine_availability`. -/
def Node.render : Node → String
  | .mk tag attrs text children =>
    "<" ++ tag ++ renderAttrs attrs ++ ">" ++ text ++ NodeList.renderList children
      ++ "</" ++ tag ++ ">"

/-- Rendering of a sibling list. -/
def NodeList.renderList : NodeList → String
  | .nil => ""
  | .cons n ns => Node.render n ++ NodeList.renderList ns

end

mutual

/-- Model of `element.get_text(strip=True)`: concatenation of the stripped
text pieces of the subtree in document order (each node contributes its own
text before its children's). -/
def Node.getText : Node → String
  | .mk _ _ text children => strStrip text ++ NodeList.textList children

/-- Concatenated stripped text of a sibling list. -/
def NodeList.textList : NodeList → String
  | .nil => ""
  | .cons n ns => Node.getText n ++ NodeList.textList ns

end

/-- Lean model of `safe_get_text` (src/scraper.py lines 174-187). -/
def safe_get_text (element : Option Node) (default : String := "") : String :=
  match element with
  | none => default
  | some e => e.getText

/-! ## Availability classifier -/

/-- The fixed out-of-stock substring list (src/scraper.py lines 152-155). -/
def out_of_stock_patterns : List String :=
  ["out of stock", "sold out", "unavailable", "not available",
   "currently unavailable", "out-of-stock", "soldout"]

/-- The fixed in-stock substring list (src/scraper.py lines 162-165). -/
def in_stock_patterns : List String :=
  ["in stock", "available", "add to cart", "buy now",
   "in-stock", "instock"]

/-- The `for pattern in ...: if pattern in search_text: return ...` loop:
true iff some pattern in the list occurs in the search text. -/
def patternLoopHit : List String → String → Bool
  | [], _ => false
  | p :: ps, s => strContainsSub s p || patternLoopHit ps s

/-- Lean model of `determine_availability` (src/scraper.py lines 130-171). -/
def determine_availability (element : Option Node) (text : Option String) : String :=
  if !truthyStr text && element.isNone then "Unknown"
  else
    let searchText := if truthyStr text then strLower (text.getD "") else ""
    let searchText :=
      match element with
      | some e => searchText ++ " " ++ strLower (Node.render e)
      | none => searchText
    if patternLoopHit out_of_stock_patterns searchText then "Out of Stock"
    else if patternLoopHit in_stock_patterns searchText then "In Stock"
    else "Unknown"

/-! ## Pattern matcher -/

/-- One attribute constraint from a search-pattern dict: an exact value
(`{"data-component-type": "s-search-result"}`), attribute presence
(`{"data-price": True}`), or a compiled case-insensitive regex on the
`class` attribute.  Every class regex in the source is an alternation of
space-free literals (after expanding `[-_]?`), matched by `re.search`,
i.e. as a case-insensitive substring of the class string. -/
inductive AttrCond where
  | exact (key val : String)
  | present (key : String)
  | classRe (lits : List String)

/-- Value of an attribute on a node, if set. -/
def lookupAttr (n : Node) (key : String) : Option String :=
  (n.attrList.find? (fun kv => kv.1 == key)).map (fun kv => kv.2)

/-- Whether some literal of a case-insensitive regex alternation occurs in
the value (model of `re.compile(..., re.I).search(value)`). -/
def ciSubstrAny (lits : List String) (v : String) : Bool :=
  lits.any (fun lit => strContainsSub (strLower v) (strLower lit))

/-- Whether a node satisfies one attribute constraint (model of
BeautifulSoup attribute matching; a missing attribute matches nothing but
`present` requires it). -/
def attrCondHolds (n : Node) : AttrCond → Bool
  | .exact k v => lookupAttr n k == some v
  | .present k => (lookupAttr n k).isSome
  | .classRe lits =>
    match lookupAttr n "class" with
    | some v => ciSubstrAny lits v
    | none => false

/-- One search-pattern dict `{"tag": ..., "attrs": ...}`: an optional tag
name (`None` matches any tag) and attribute constraints. -/
structure SearchPattern where
  tag : Option String
  conds : List AttrCond

/-- Whether a node matches a search pattern (tag and all attributes). -/
def nodeMatches (p : SearchPattern) (n : Node) : Bool :=
  (match p.tag with
   | none => true
   | some t => n.tagName == t)
  && p.conds.all (attrCondHolds n)

/-- Model of `container.find(tag, attrs=...)`: the first strict descendant
in document order matching the pattern. -/
def findDescendant (container : Node) (p : SearchPattern) : Option Node :=
  container.descendants.find? (nodeMatches p)

/-- Lean model of `find_element_by_patterns` (src/scraper.py lines
190-208): first pattern that finds an element wins. -/
def find_element_by_patterns (container : Node) : List SearchPattern → Option Node
  | [] => none
  | p :: ps =>
    match findDescendant container p with
    | some e => some e
    | none => find_element_by_patterns container ps

/-! ## Container locator -/

/-- Model of `soup.find_all(attrs=...)`: all nodes of the document in
document order satisfying the attribute constraints. -/
def findAllAttrs (doc : Node) (conds : List AttrCond) : List Node :=
  doc.descendants.filter (fun n => conds.all (attrCondHolds n))

/-- The fixed container pattern list (src/scraper.py lines 359-366), with
each compiled regex expanded into its literal alternatives. -/
def container_patterns : List (List AttrCond) :=
  [[.classRe ["productcard", "product-card", "product_card"]],
   [.classRe ["productitem", "product-item", "product_item"]],
   [.classRe ["producttile", "product-tile", "product_tile"]],
   [.classRe ["searchresult", "search-result", "search_result"]],
   [.exact "data-component-type" "s-search-result"],
   [.classRe ["_1atvbe"]]]

/-- The loop of `find_product_containers`: the first pattern whose
`find_all` is nonempty contributes its whole match set; later patterns are
not tried (`break`). -/
def locateContainers (doc : Node) : List (List AttrCond) → List Node
  | [] => []
  | p :: ps =>
    let found := findAllAttrs doc p
    if found.isEmpty then locateContainers doc ps else found

/-- Lean model of `find_product_containers` (src/scraper.py lines
348-376). -/
def find_product_containers (doc : Node) : List Node :=
  locateContainers doc container_patterns

/-! ## Record extractor -/

/-- Name search patterns (src/scraper.py lines 274-280). -/
def name_patterns : List SearchPattern :=
  [⟨some "h2", []⟩,
   ⟨some "h3", []⟩,
   ⟨some "a", [.classRe ["title", "name", "product"]]⟩,
   ⟨some "span", [.classRe ["title", "name", "product"]]⟩,
   ⟨some "div", [.classRe ["title", "name", "product"]]⟩]

/-- Current-price search patterns (src/scraper.py lines 282-286). -/
def current_price_patterns : List SearchPattern :=
  [⟨some "span", [.classRe ["price", "cost", "sale", "final"]]⟩,
   ⟨some "div", [.classRe ["price", "cost", "sale", "final"]]⟩,
   ⟨none, [.present "data-price"]⟩]

/-- MRP search patterns (src/scraper.py lines 288-293). -/
def mrp_patterns : List SearchPattern :=
  [⟨some "span", [.classRe ["mrp", "original", "strike", "was", "old"]]⟩,
   ⟨some "del", []⟩,
   ⟨some "s", []⟩,
   ⟨some "strike", []⟩]

/-- Discount search patterns (src/scraper.py lines 295-298). -/
def discount_patterns : List SearchPattern :=
  [⟨some "span", [.classRe ["discount", "off", "save", "percent"]]⟩,
   ⟨some "div", [.classRe ["discount", "off", "save", "percent"]]⟩]

/-- Rating search patterns (src/scraper.py lines 300-304). -/
def rating_patterns : List SearchPattern :=
  [⟨some "span", [.classRe ["rating", "star", "review"]]⟩,
   ⟨some "div", [.classRe ["rating", "star", "review"]]⟩,
   ⟨none, [.present "data-rating"]⟩]

/-- Availability search patterns (src/scraper.py lines 306-309). -/
def availability_patterns : List SearchPattern :=
  [⟨some "span", [.classRe ["stock", "avail", "inventory"]]⟩,
   ⟨some "div", [.classRe ["stock", "avail", "inventory"]]⟩]

/-- Round half to even to the nearest integer (the tie rule of Python
float formatting). -/
def roundHalfEven (q : ℚ) : ℤ :=
  let f := ⌊q⌋
  let frac := q - f
  if frac < 1 / 2 then f
  else if 1 / 2 < frac then f + 1
  else if f % 2 = 0 then f else f + 1

/-- Decimal digits of a natural number (structural fuel recursion so that
concrete values reduce in the kernel; `fuel ≥ n` suffices). -/
def natChars : ℕ → ℕ → List Char
  | 0, _ => []
  | fuel + 1, n =>
    if n < 10 then [Char.ofNat (48 + n)]
    else natChars fuel (n / 10) ++ [Char.ofNat (48 + n % 10)]

/-- Decimal rendering of a natural number (model of Python `str` on `int`). -/
def natToStr (n : ℕ) : String :=
  String.mk (natChars (n + 1) n)

/-- Model of Python `f"{q:.1f}"`: the value rounded half-to-even to one
decimal place, rendered with exactly one digit after the point.  (The
binary-float representation error of the Python value is not modeled;
rationals are formatted exactly.) -/
def formatFixed1 (q : ℚ) : String :=
  let tenths := roundHalfEven (q * 10)
  let sign := if tenths < 0 then "-" else ""
  let a := tenths.natAbs
  sign ++ natToStr (a / 10) ++ "." ++ natToStr (a % 10)

/-- One extracted record: the dict built by `extract_product_data` plus the
`source_url` key added by `scrape_listing_page` (absent, i.e. `none`, until
that point). -/
structure ProductData where
  product_name : Option String
  current_price : Option ℚ
  mrp : Option ℚ
  discount : Option String
  rating : Option ℚ
  availability : String
  scrape_timestamp_utc : String
  source_url : Option String
deriving DecidableEq

/-- Python truthiness of an optional float: `None` and `0.0` are falsy. -/
def truthyNum : Option ℚ → Bool
  | none => false
  | some q => q != 0

/-- The dict literal built in `extract_product_data` (src/scraper.py lines
311-331), before the derived-discount step.  `ts` models the value of
`datetime.now(timezone.utc).isoformat()` at this call. -/
def rawProductData (ts : String) (product_element : Node) : ProductData :=
  let name_elem := find_element_by_patterns product_element name_patterns
  let price_elem := find_element_by_patterns product_element current_price_patterns
  let mrp_elem := find_element_by_patterns product_element mrp_patterns
  let discount_elem := find_element_by_patterns product_element discount_patterns
  let rating_elem := find_element_by_patterns product_element rating_patterns
  let availability_elem := find_element_by_patterns product_element availability_patterns
  { product_name :=
      let s := safe_get_text name_elem
      if s.data.isEmpty then none else some s
    current_price := extract_price (some (safe_get_text price_elem))
    mrp := extract_price (some (safe_get_text mrp_elem))
    discount := extract_discount (some (safe_get_text discount_elem))
    rating := extract_rating (some (safe_get_text rating_elem))
    availability := determine_availability availability_elem (some (safe_get_text availability_elem))
    scrape_timestamp_utc := ts
    source_url := none }

/-- The derived-discount step (src/scraper.py lines 333-344): compute the
discount from MRP and current price only when no discount was extracted and
both prices are truthy (present and nonzero) with `mrp > current_price`. -/
def applyDerivedDiscount (d : ProductData) : ProductData :=
  match d.discount, d.mrp, d.current_price with
  | none, some m, some c =>
    if m != 0 && c != 0 && decide (c < m) then
      { d with discount := some (formatFixed1 ((m - c) / m * 100) ++ "%") }
    else d
  | _, _, _ => d

/-- Lean model of `extract_product_data` (src/scraper.py lines 263-346). -/
def extract_product_data (ts : String) (product_element : Node) : ProductData :=
  applyDerivedDiscount (rawProductData ts product_element)

/-! ## Listing extractor -/

/-- The per-container loop of `scrape_listing_page` (src/scraper.py lines
396-408).  The loop body sits inside `try: ... except: continue`, so it is
abstracted as a fallible `step`; a failing container is skipped and the
loop continues, and a record is kept only when its `product_name` is
truthy, with the `source_url` key added. -/
def listingLoop (step : Node → Except String ProductData) (url : String) :
    List Node → List ProductData
  | [] => []
  | c :: cs =>
    match step c with
    | .error _ => listingLoop step url cs
    | .ok d =>
      if truthyStr d.product_name then
        { d with source_url := some url } :: listingLoop step url cs
      else listingLoop step url cs

/-- The actual loop body: `extract_product_data` is total in the model, so
the step always succeeds. -/
def pureStep (ts : String) (c : Node) : Except String ProductData :=
  .ok (extract_product_data ts c)

/-- Lean model of `scrape_listing_page` (src/scraper.py lines 378-411) on
an already-fetched document: page fetching is the excluded external
collaborator, and a fetch failure short-circuits to `[]` before this code
runs. -/
def extract_listing (doc : Node) (url : String) (ts : String) : List ProductData :=
  listingLoop (pureStep ts) url (find_product_containers doc)

/-- All fields of a record except the timestamp, for the determinism
statement. -/
def sansTimestamp (d : ProductData) :
    Option String × Option ℚ × Option ℚ × Option String × Option ℚ × String × Option String :=
  (d.product_name, d.current_price, d.mrp, d.discount, d.rating, d.availability, d.source_url)

/-! ## Spec-side definitions

Each `*_spec` definition below follows the specification's own wording for
a normalizer contract, to be compared with the definition embedded from
the source.  `extract_discount_claim` follows the ORIGINAL claim wording
(percent sign immediately after the number); the source's regex allows
whitespace there, which refutes that wording. -/

/-- Price normalizer as the spec words it: keep only digits, `.` and `,`;
drop the commas; parse the remainder as a decimal number, `none` on an
empty or non-numeric remainder. -/
def extract_price_spec (text : Option String) : Option ℚ :=
  match text with
  | none => none
  | some t =>
    let kept := t.data.filter (fun c => c.isDigit || c == '.' || c == ',')
    parseDecimal (kept.filter (fun c => c != ','))

/-- Percent matcher with the ORIGINAL claim's adjacency requirement: the
number must be immediately followed by `%`, with no intervening
whitespace.  Only used to state the refuted claim. -/
def matchPercentAtStrict (cs : List Char) : Option (List Char) :=
  let ds := cs.takeWhile Char.isDigit
  if ds.isEmpty then none
  else
    let rest := cs.drop ds.length
    let (num, rest2) :=
      match rest with
      | '.' :: r =>
        let fs := r.takeWhile Char.isDigit
        if fs.isEmpty then (ds, rest) else (ds ++ '.' :: fs, r.drop fs.length)
      | _ => (ds, rest)
    match rest2 with
    | '%' :: _ => some num
    | _ => none

/-- Leftmost search for the strict-adjacency percent pattern. -/
def searchPercentStrict : List Char → Option (List Char)
  | [] => none
  | c :: cs =>
    match matchPercentAtStrict (c :: cs) with
    | some g => some g
    | none => searchPercentStrict cs

/-- Discount normalizer exactly as the original claim words it: the
percent rule fires only when the number is immediately followed by `%`. -/
def extract_discount_claim (text : Option String) : Option String :=
  match text with
  | none => none
  | some t =>
    match searchPercentStrict t.data with
    | some g => some (String.mk g ++ "%")
    | none =>
      match searchAmount t.data with
      | some m => some ("₹" ++ String.mk (m.filter (fun c => c != ',')))
      | none =>
        if (trimChars t.data).isEmpty then none else some (String.mk (trimChars t.data))

/-- Discount normalizer as the (amended) spec words it: percentage first
(whitespace allowed before the percent sign), then amount with commas
stripped, then the trimmed input if non-empty, else none. -/
def extract_discount_spec (text : Option String) : Option String :=
  match text with
  | none => none
  | some t =>
    match searchPercent t.data with
    | some g => some (String.mk g ++ "%")
    | none =>
      match searchAmount t.data with
      | some m => some ("₹" ++ String.mk (m.filter (fun c => c != ',')))
      | none =>
        if (trimChars t.data).isEmpty then none else some (String.mk (trimChars t.data))

/-- Rating normalizer as the spec words it: first single digit with an
optional single decimal digit, discarded when outside `[0, 5]`. -/
def extract_rating_spec (text : Option String) : Option ℚ :=
  match text with
  | none => none
  | some t =>
    match searchRatingNum t.data with
    | some (c, od) =>
      let r := ratingVal c od
      if r < 0 ∨ 5 < r then none else some r
    | none => none

/-- Availability classifier as the spec words it: build the combined
lowercase search space (text, then a space and the element's rendering
when an element is present), test the out-of-stock list first, then the
in-stock list, else Unknown. -/
def determine_availability_spec (element : Option Node) (text : Option String) : String :=
  let space :=
    match element with
    | some e => strLower (text.getD "") ++ " " ++ strLower (Node.render e)
    | none => strLower (text.getD "")
  if out_of_stock_patterns.any (fun p => strContainsSub space p) then "Out of Stock"
  else if in_stock_patterns.any (fun p => strContainsSub space p) then "In Stock"
  else "Unknown"

/-! ## Concrete fixture documents for witnesses and counterexamples -/

/-- A well-formed product container: name, price ₹800, MRP ₹1,000. -/
def demoContainer : Node :=
  nodeOf "div" [("class", "product-card")] ""
    [nodeOf "h2" [] "Phone X" [],
     nodeOf "span" [("class", "price")] "₹800" [],
     nodeOf "del" [] "₹1,000" []]

/-- A container whose current price extracts as `0.0`: Python truthiness
then blocks the derived-discount computation. -/
def zeroPriceContainer : Node :=
  nodeOf "div" [("class", "product-card")] ""
    [nodeOf "h2" [] "Phone Z" [],
     nodeOf "span" [("class", "price")] "₹0" [],
     nodeOf "del" [] "₹100" []]

/-- A node matching container pattern #1 (`product-card`). -/
def cardNode : Node := nodeOf "div" [("class", "product-card")] "" []

/-- A node matching only container pattern #3 (`product_tile`). -/
def tileNode : Node := nodeOf "div" [("class", "product_tile")] "" []

/-- A document holding both a pattern #1 node and a pattern #3 node. -/
def demoListingDoc : Node :=
  nodeOf "html" [] "" [nodeOf "body" [] "" [cardNode, tileNode]]

/-- A container with an h2 name element. -/
def namedContainer : Node := nodeOf "div" [] "" [nodeOf "h2" [] "Title" []]

/-- The h2 name element of `namedContainer`. -/
def namedH2 : Node := nodeOf "h2" [] "Title" []

/-- A container with a price but no name element at all. -/
def noNameContainer : Node :=
  nodeOf "div" [("class", "product-card")] ""
    [nodeOf "span" [("class", "price")] "₹99" []]

/-- A second, valid container for the resilience witness. -/
def validContainer : Node :=
  nodeOf "div" [("class", "product-card")] "" [nodeOf "h2" [] "Phone V" []]

/-- A container whose name element has whitespace-only (hence empty after
stripping) visible text. -/
def blankNameContainer : Node :=
  nodeOf "div" [] "" [nodeOf "h2" [] "   " []]

/-- The blank h2 name element of `blankNameContainer`. -/
def blankH2 : Node := nodeOf "h2" [] "   " []

/-! ## Helper lemmas -/

/-- Whitespace characters are discarded by the price character filter. -/
lemma ws_not_kept (c : Char) (hw : c.isWhitespace = true) :
    (c.isDigit || c == '.' || c == ',') = false := by
  simp [Char.isWhitespace] at hw
  rcases hw with ((h | h) | h) | h <;> subst h <;> decide

/-- Dropping a whitespace run does not change a filter that discards
whitespace. -/
lemma filter_dropWhile_ws (p : Char → Bool) (hp : ∀ c, c.isWhitespace = true → p c = false)
    (l : List Char) : (l.dropWhile Char.isWhitespace).filter p = l.filter p := by
  induction l with
  | nil => rfl
  | cons c cs ih =>
    rw [List.dropWhile_cons]
    by_cases hw : c.isWhitespace = true
    · rw [if_pos hw, ih, List.filter_cons, hp c hw]
      simp
    · rw [if_neg hw]

/-- Stripping does not change a filter that discards whitespace. -/
lemma filter_trimChars (p : Char → Bool) (hp : ∀ c, c.isWhitespace = true → p c = false)
    (l : List Char) : (trimChars l).filter p = l.filter p := by
  unfold trimChars
  rw [List.filter_reverse, filter_dropWhile_ws p hp, List.filter_reverse,
    filter_dropWhile_ws p hp, List.reverse_reverse]

/-- The empty remainder does not parse. -/
lemma parseDecimal_nil : parseDecimal [] = none := rfl

/-- The availability pattern loop is an `any` over the pattern list. -/
lemma patternLoopHit_any (ps : List String) (s : String) :
    patternLoopHit ps s = ps.any (fun p => strContainsSub s p) := by
  induction ps with
  | nil => rfl
  | cons p ps ih => rw [patternLoopHit, ih, List.any_cons]

/-- The derived-discount step never touches `product_name`. -/
lemma applyDerived_name (d : ProductData) :
    (applyDerivedDiscount d).product_name = d.product_name := by
  rcases d with ⟨pn, cp, m, disc, rat, av, ts0, su⟩
  unfold applyDerivedDiscount
  cases disc <;> cases m <;> cases cp <;> dsimp <;> split <;> rfl

/-- The derived-discount step commutes with replacing the timestamp. -/
lemma applyDerived_ts (d : ProductData) (ts : String) :
    applyDerivedDiscount { d with scrape_timestamp_utc := ts }
      = { applyDerivedDiscount d with scrape_timestamp_utc := ts } := by
  rcases d with ⟨pn, cp, m, disc, rat, av, ts0, su⟩
  unfold applyDerivedDiscount
  cases disc <;> cases m <;> cases cp <;> dsimp <;> split <;> rfl

/-- Only the timestamp field of an extracted record depends on the
timestamp argument. -/
lemma extract_ts (ts ts' : String) (c : Node) :
    extract_product_data ts c
      = { extract_product_data ts' c with scrape_timestamp_utc := ts } := by
  unfold extract_product_data
  rw [show rawProductData ts c = { rawProductData ts' c with scrape_timestamp_utc := ts } from rfl,
    applyDerived_ts]

/-- Unfolding equation of the listing loop at a cons cell. -/
lemma listingLoop_cons (step : Node → Except String ProductData) (url : String)
    (c : Node) (cs : List Node) :
    listingLoop step url (c :: cs)
      = match step c with
        | .error _ => listingLoop step url cs
        | .ok d =>
          if truthyStr d.product_name then
            { d with source_url := some url } :: listingLoop step url cs
          else listingLoop step url cs := rfl

/-- A failing step is skipped and the loop continues. -/
lemma listingLoop_cons_error (step : Node → Except String ProductData) (url : String)
    (c : Node) (cs : List Node) (msg : String) (h : step c = .error msg) :
    listingLoop step url (c :: cs) = listingLoop step url cs := by
  rw [listingLoop_cons, h]

/-- A record with a falsy product name is dropped and the loop continues. -/
lemma listingLoop_cons_skip (step : Node → Except String ProductData) (url : String)
    (c : Node) (cs : List Node) (d : ProductData) (h : step c = .ok d)
    (ht : truthyStr d.product_name = false) :
    listingLoop step url (c :: cs) = listingLoop step url cs := by
  rw [listingLoop_cons, h]
  dsimp only
  rw [if_neg (by simp [ht])]

/-- Every record surfaced by the loop has a truthy product name. -/
lemma mem_listingLoop_truthy (step : Node → Except String ProductData) (url : String)
    (l : List Node) (d : ProductData) (hd : d ∈ listingLoop step url l) :
    truthyStr d.product_name = true := by
  induction l with
  | nil => simp [listingLoop] at hd
  | cons c cs ih =>
    rw [listingLoop_cons] at hd
    cases hs : step c with
    | error msg => rw [hs] at hd; exact ih hd
    | ok d0 =>
      rw [hs] at hd
      dsimp only at hd
      by_cases ht : truthyStr d0.product_name = true
      · rw [if_pos (by simp [ht])] at hd
        rcases List.mem_cons.mp hd with h | h
        · subst h; simpa using ht
        · exact ih h
      · rw [if_neg (by simpa using ht)] at hd; exact ih hd

/-- If no pattern of a pattern list yields matching nodes, the locator
loop returns the empty list. -/
lemma locateContainers_all_empty (doc : Node) (pats : List (List AttrCond))
    (h : ∀ p ∈ pats, findAllAttrs doc p = []) : locateContainers doc pats = [] := by
  induction pats with
  | nil => rfl
  | cons p ps ih =>
    show (if (findAllAttrs doc p).isEmpty then locateContainers doc ps else findAllAttrs doc p) = []
    rw [h p (List.mem_cons_self p ps)]
    simpa using ih (fun q hq => h q (List.mem_cons_of_mem p hq))

/-- Code and spec wording of the availability classifier agree on every
input. -/
lemma determine_availability_eq_spec (e : Option Node) (t : Option String) :
    determine_availability e t = determine_availability_spec e t := by
  cases t with
  | none => cases e <;> rfl
  | some t =>
    obtain ⟨td⟩ := t
    cases td with
    | nil => cases e <;> rfl
    | cons ch chs => cases e <;> rfl

/-! ## Claim theorems -/

/-- Claim C6: the price normalizer strips all characters except digits,
`.` and `,`, removes all commas, and parses the remainder as a decimal
number, returning none when the remainder is empty or non-numeric; in
particular `"₹12,999"` gives 12999.0, `"$999.99"` gives 999.99, and
`"Rs."` alone gives none. -/
theorem extract_price_contract :
    (∀ t, extract_price t = extract_price_spec t) ∧
    extract_price (some "₹12,999") = some 12999 ∧
    extract_price (some "$999.99") = some (99999 / 100) ∧
    extract_price (some "Rs.") = none := by
  refine ⟨?_, by decide, by decide, by decide⟩
  intro t
  cases t with
  | none => rfl
  | some t =>
    simp only [extract_price, extract_price_spec]
    by_cases he : t.data.isEmpty
    · rw [if_pos he, List.isEmpty_iff.mp he]
      rfl
    · rw [if_neg he, filter_trimChars _ ws_not_kept]
      by_cases hc :
          ((t.data.filter fun c => c.isDigit || c == '.' || c == ',').filter
            fun c => c != ',').isEmpty
      · rw [if_pos hc, List.isEmpty_iff.mp hc, parseDecimal_nil]
      · rw [if_neg hc]

/-- Claim C7: the rating normalizer extracts only the first occurrence of
a single digit optionally followed by `.` and one more digit, parses it as
a decimal, and returns none outside `[0, 5]`; later numerals are ignored;
`"7 out of 5"` gives none and `"4.5 out of 5"` gives 4.5. -/
theorem extract_rating_contract :
    (∀ t, extract_rating t = extract_rating_spec t) ∧
    extract_rating (some "7 out of 5") = none ∧
    extract_rating (some "4.5 out of 5") = some (9 / 2) ∧
    extract_rating (some "1 and then 9.9 stars") = some 1 := by
  refine ⟨?_, by decide, by decide, by decide⟩
  intro t
  cases t with
  | none => rfl
  | some t =>
    simp only [extract_rating, extract_rating_spec]
    by_cases he : t.data.isEmpty
    · rw [if_pos he, List.isEmpty_iff.mp he]
      rfl
    · rw [if_neg he]
      cases hm : searchRatingNum t.data with
      | none => rfl
      | some pr =>
        obtain ⟨c, od⟩ := pr
        dsimp only
        by_cases h1 : 0 ≤ ratingVal c od ∧ ratingVal c od ≤ 5
        · rw [if_pos h1, if_neg (by push_neg; exact ⟨h1.1, h1.2⟩)]
        · rw [if_neg h1]
          rcases not_and_or.mp h1 with h | h
          · rw [if_pos (Or.inl (not_le.mp h))]
          · rw [if_pos (Or.inr (not_le.mp h))]

/-- Claim C4 (amended): the percent rule fires when the text contains a
number followed by `%`, allowing whitespace between the number and the
percent sign, returning that number verbatim plus `%`; otherwise a
numeric-with-commas substring becomes `₹` plus the substring with commas
stripped; otherwise the trimmed input if non-empty, else none; percentage
always wins over amount. -/
theorem extract_discount_contract :
    (∀ t, extract_discount t = extract_discount_spec t) ∧
    (∀ (t : String) (g : List Char), searchPercent t.data = some g →
      extract_discount (some t) = some (String.mk g ++ "%")) ∧
    extract_discount (some "Save 20% off ₹2,000") = some "20%" ∧
    extract_discount (some "20 %") = some "20%" ∧
    extract_discount none = none := by
  refine ⟨?_, ?_, by decide, by decide, rfl⟩
  · intro t
    cases t with
    | none => rfl
    | some t =>
      simp only [extract_discount, extract_discount_spec]
      by_cases he : t.data.isEmpty
      · rw [if_pos he, List.isEmpty_iff.mp he]
        rfl
      · rw [if_neg he]
  · intro t g hg
    have he : ¬ t.data.isEmpty = true := by
      intro h
      rw [List.isEmpty_iff.mp h, show searchPercent [] = none from rfl] at hg
      exact Option.noConfusion hg
    simp only [extract_discount]
    rw [if_neg he, hg]

/-- Claim C4 counterexample: on `"20 %"` the source returns `"20%"`
(its regex allows whitespace before the percent sign), while the claim's
strict adjacency reading demands the amount rule, i.e. `"₹20"`. -/
theorem extract_discount_claim_cex :
    extract_discount (some "20 %") = some "20%" ∧
    extract_discount_claim (some "20 %") = some "₹20" ∧
    ("20%" : String) ≠ "₹20" := by
  refine ⟨by decide, by decide, by decide⟩

/-- Witness for claim C4: the amended percent rule applied at a concrete
input. -/
theorem extract_discount_contract_witness :
    extract_discount (some "Save 20% off ₹2,000") = some (String.mk ['2', '0'] ++ "%") :=
  extract_discount_contract.2.1 "Save 20% off ₹2,000" ['2', '0'] (by decide)

/-- Claim C5: the availability classifier builds a combined lowercase
search space, checks the out-of-stock list first (short-circuiting, so
text containing both phrases classifies as Out of Stock), then the
in-stock list, and returns Unknown when neither matches or both inputs are
absent; the result is always one of the three literal strings. -/
theorem determine_availability_contract :
    (∀ (e : Option Node) (t : Option String),
      determine_availability e t = determine_availability_spec e t) ∧
    (∀ (e : Option Node) (t : Option String),
      determine_availability e t = "In Stock" ∨ determine_availability e t = "Out of Stock" ∨
        determine_availability e t = "Unknown") ∧
    (∀ t : String, strContainsSub (strLower t) "out of stock" = true →
      strContainsSub (strLower t) "in stock" = true →
      determine_availability none (some t) = "Out of Stock") := by
  refine ⟨determine_availability_eq_spec, ?_, ?_⟩
  · intro e t
    rw [determine_availability_eq_spec]
    unfold determine_availability_spec
    cases e <;> dsimp only <;> split_ifs <;>
      first
        | exact Or.inl rfl
        | exact Or.inr (Or.inl rfl)
        | exact Or.inr (Or.inr rfl)
  · intro t h1 h2
    have hne : ¬ t.data.isEmpty = true := by
      intro h
      rw [show strLower t = String.mk (t.data.map Char.toLower) from rfl,
        List.isEmpty_iff.mp h] at h1
      exact absurd h1 (by decide)
    simp [determine_availability, truthyStr, hne, patternLoopHit_any,
      out_of_stock_patterns, h1]

/-- Witness for claim C5: a text containing both an in-stock and an
out-of-stock phrase classifies as Out of Stock. -/
theorem determine_availability_contract_witness :
    determine_availability none (some "Currently OUT OF STOCK (was in stock)") = "Out of Stock" :=
  determine_availability_contract.2.2 "Currently OUT OF STOCK (was in stock)"
    (by decide) (by decide)

/-- Claim C3: the container locator evaluates its patterns strictly in
order; the first pattern with one or more matching nodes contributes
exactly its full match set and later patterns are never evaluated; when no
pattern matches, the empty sequence is returned. -/
theorem find_product_containers_first_match :
    (∀ (doc : Node) (p : List AttrCond) (ps : List (List AttrCond)),
      findAllAttrs doc p ≠ [] → locateContainers doc (p :: ps) = findAllAttrs doc p) ∧
    (∀ (doc : Node) (p : List AttrCond) (ps : List (List AttrCond)),
      findAllAttrs doc p = [] → locateContainers doc (p :: ps) = locateContainers doc ps) ∧
    (∀ doc : Node, (∀ p ∈ container_patterns, findAllAttrs doc p = []) →
      find_product_containers doc = []) ∧
    (∀ doc : Node,
      findAllAttrs doc [AttrCond.classRe ["productcard", "product-card", "product_card"]] ≠ [] →
      find_product_containers doc
        = findAllAttrs doc [AttrCond.classRe ["productcard", "product-card", "product_card"]]) := by
  have h1 : ∀ (doc : Node) (p : List AttrCond) (ps : List (List AttrCond)),
      findAllAttrs doc p ≠ [] → locateContainers doc (p :: ps) = findAllAttrs doc p := by
    intro doc p ps h
    show (if (findAllAttrs doc p).isEmpty then locateContainers doc ps else findAllAttrs doc p)
      = findAllAttrs doc p
    rw [if_neg (by simpa [List.isEmpty_iff] using h)]
  have h2 : ∀ (doc : Node) (p : List AttrCond) (ps : List (List AttrCond)),
      findAllAttrs doc p = [] → locateContainers doc (p :: ps) = locateContainers doc ps := by
    intro doc p ps h
    show (if (findAllAttrs doc p).isEmpty then locateContainers doc ps else findAllAttrs doc p)
      = locateContainers doc ps
    rw [if_pos (by simp [h])]
  exact ⟨h1, h2, fun doc h => locateContainers_all_empty doc _ h, fun doc h => h1 doc _ _ h⟩

/-- Witness for claim C3: in a document holding a pattern #1 node and a
pattern #3 node, only the pattern #1 match set is returned. -/
theorem find_product_containers_first_match_witness :
    find_product_containers demoListingDoc = [cardNode] :=
  (find_product_containers_first_match.2.2.2 demoListingDoc
    (by
      intro hh
      rw [show findAllAttrs demoListingDoc
          [AttrCond.classRe ["productcard", "product-card", "product_card"]] = [cardNode]
        from rfl] at hh
      exact absurd hh (List.cons_ne_nil _ _))).trans rfl

/-- Claim C8: the pattern matcher iterates the patterns in order and
returns the first node found by the first pattern that yields any result,
never continuing after a success; it returns none exactly when no pattern
matches any descendant. -/
theorem find_element_first_success :
    (∀ (c : Node) (p : SearchPattern) (ps : List SearchPattern) (e : Node),
      findDescendant c p = some e → find_element_by_patterns c (p :: ps) = some e) ∧
    (∀ (c : Node) (p : SearchPattern) (ps : List SearchPattern),
      findDescendant c p = none →
      find_element_by_patterns c (p :: ps) = find_element_by_patterns c ps) ∧
    (∀ (c : Node) (ps : List SearchPattern),
      find_element_by_patterns c ps = none ↔
        ∀ p ∈ ps, ∀ n ∈ c.descendants, nodeMatches p n = false) := by
  have hcons : ∀ (c : Node) (p : SearchPattern) (ps : List SearchPattern),
      find_element_by_patterns c (p :: ps)
        = match findDescendant c p with
          | some e => some e
          | none => find_element_by_patterns c ps := fun _ _ _ => rfl
  have h1 : ∀ (c : Node) (p : SearchPattern) (ps : List SearchPattern) (e : Node),
      findDescendant c p = some e → find_element_by_patterns c (p :: ps) = some e := by
    intro c p ps e h
    rw [hcons, h]
  have h2 : ∀ (c : Node) (p : SearchPattern) (ps : List SearchPattern),
      findDescendant c p = none →
      find_element_by_patterns c (p :: ps) = find_element_by_patterns c ps := by
    intro c p ps h
    rw [hcons, h]
  refine ⟨h1, h2, ?_⟩
  intro c ps
  induction ps with
  | nil =>
    constructor
    · intro _ p hp
      exact absurd hp (List.not_mem_nil p)
    · intro _
      rfl
  | cons p ps ih =>
    cases hf : findDescendant c p with
    | some e =>
      rw [h1 c p ps e hf]
      apply iff_of_false (Option.some_ne_none e)
      intro hall
      have hmem : e ∈ c.descendants := List.mem_of_find?_eq_some hf
      have hmatch : nodeMatches p e = true := List.find?_some hf
      have := hall p (List.mem_cons_self p ps) e hmem
      rw [hmatch] at this
      exact Bool.noConfusion this
    | none =>
      rw [h2 c p ps hf, ih]
      constructor
      · intro h q hq n hn
        rcases List.mem_cons.mp hq with rfl | hq'
        · simpa using List.find?_eq_none.mp hf n hn
        · exact h q hq' n hn
      · intro h q hq n hn
        exact h q (List.mem_cons_of_mem p hq) n hn

/-- Witness for claim C8: the first pattern (h2) succeeds on a concrete
container and its node is returned. -/
theorem find_element_first_success_witness :
    find_element_by_patterns namedContainer name_patterns = some namedH2 :=
  find_element_first_success.1 namedContainer ⟨some "h2", []⟩
    [⟨some "h3", []⟩,
     ⟨some "a", [.classRe ["title", "name", "product"]]⟩,
     ⟨some "span", [.classRe ["title", "name", "product"]]⟩,
     ⟨some "div", [.classRe ["title", "name", "product"]]⟩] namedH2 rfl

/-- Claim C2 counterexample: a record whose current price extracts as 0.0
has both prices present and `mrp > current_price`, yet the code derives no
discount (Python truthiness treats 0.0 as absent), where the claim demands
`"100.0%"`. -/
theorem derived_discount_claim_cex :
    (rawProductData "t0" zeroPriceContainer).discount = none ∧
    (rawProductData "t0" zeroPriceContainer).mrp = some 100 ∧
    (rawProductData "t0" zeroPriceContainer).current_price = some 0 ∧
    ((0 : ℚ) < 100) ∧
    formatFixed1 ((100 - 0) / 100 * 100) ++ "%" = "100.0%" ∧
    (extract_product_data "t0" zeroPriceContainer).discount = none ∧
    (extract_product_data "t0" zeroPriceContainer).discount ≠ some "100.0%" := by
  refine ⟨by decide, by decide, by decide, by decide, by decide, by decide, by decide⟩

/-- Claim C2 (amended): if the extracted discount is none and mrp and
current_price are present, NONZERO, and `mrp > current_price`, the
record's discount is the derived percentage rounded to one decimal place
followed by `%`; an already-extracted discount is never overwritten. -/
theorem derived_discount_amended (ts : String) (c : Node) :
    (∀ m cp : ℚ, (rawProductData ts c).discount = none →
      (rawProductData ts c).mrp = some m →
      (rawProductData ts c).current_price = some cp →
      m ≠ 0 → cp ≠ 0 → cp < m →
      (extract_product_data ts c).discount = some (formatFixed1 ((m - cp) / m * 100) ++ "%")) ∧
    (∀ s : String, (rawProductData ts c).discount = some s →
      (extract_product_data ts c).discount = some s) := by
  unfold extract_product_data
  generalize rawProductData ts c = r
  rcases r with ⟨pn, cp0, m0, disc, rat, av, ts0, su⟩
  constructor
  · intro m cp hdisc hm hcp hm0 hcp0 hlt
    dsimp only at hdisc hm hcp
    subst hdisc; subst hm; subst hcp
    unfold applyDerivedDiscount
    dsimp only
    rw [if_pos (by simp [bne_iff_ne, hm0, hcp0, hlt])]
  · intro s hdisc
    dsimp only at hdisc
    subst hdisc
    rfl

/-- Witness for claim C2: a concrete container with mrp ₹1,000 and price
₹800 and no extracted discount gets the derived discount `"20.0%"`. -/
theorem derived_discount_amended_witness :
    (extract_product_data "t0" demoContainer).discount = some "20.0%" := by
  have h := (derived_discount_amended "t0" demoContainer).1 1000 800
    (by decide) (by decide) (by decide) (by decide) (by decide) (by decide)
  rw [h]
  decide

/-- Claim C9: a container from which no product name is extracted
contributes no record, any per-container failure is caught so that
subsequent containers are still processed, and every surfaced record has a
present product name. -/
theorem listing_validity_filter :
    (∀ (step : Node → Except String ProductData) (url : String) (c : Node) (cs : List Node)
      (msg : String), step c = Except.error msg →
      listingLoop step url (c :: cs) = listingLoop step url cs) ∧
    (∀ (step : Node → Except String ProductData) (url : String) (c : Node) (cs : List Node)
      (d : ProductData), step c = Except.ok d → truthyStr d.product_name = false →
      listingLoop step url (c :: cs) = listingLoop step url cs) ∧
    (∀ (ts url : String) (c : Node) (cs : List Node),
      (extract_product_data ts c).product_name = none →
      listingLoop (pureStep ts) url (c :: cs) = listingLoop (pureStep ts) url cs) ∧
    (∀ (doc : Node) (url ts : String) (d : ProductData),
      d ∈ extract_listing doc url ts → d.product_name ≠ none) := by
  refine ⟨listingLoop_cons_error, listingLoop_cons_skip, ?_, ?_⟩
  · intro ts url c cs h
    exact listingLoop_cons_skip _ _ _ _ _ rfl (by rw [h]; rfl)
  · intro doc url ts d hd hnone
    have htr := mem_listingLoop_truthy _ _ _ _ hd
    rw [hnone] at htr
    exact Bool.noConfusion htr

/-- Witness for claim C9: a container with no name element contributes
nothing and the loop continues with the remaining containers. -/
theorem listing_validity_filter_witness :
    listingLoop (pureStep "t0") "u" [noNameContainer, validContainer]
      = listingLoop (pureStep "t0") "u" [validContainer] :=
  listing_validity_filter.2.2.1 "t0" "u" noNameContainer [validContainer] (by decide)

/-- Claim C10: when the name lookup matches an element whose visible text
is empty, the product name is coerced to none, and the record is discarded
by the validity filter exactly as if no name element had matched. -/
theorem empty_name_discarded (ts : String) (c : Node) (e : Node)
    (hfind : find_element_by_patterns c name_patterns = some e)
    (htext : Node.getText e = "") :
    (extract_product_data ts c).product_name = none ∧
    ∀ (url : String) (cs : List Node),
      listingLoop (pureStep ts) url (c :: cs) = listingLoop (pureStep ts) url cs := by
  have hname : (extract_product_data ts c).product_name = none := by
    rw [extract_product_data, applyDerived_name]
    simp [rawProductData, hfind, safe_get_text, htext]
  refine ⟨hname, ?_⟩
  intro url cs
  exact listingLoop_cons_skip _ _ _ _ _ rfl (by rw [hname]; rfl)

/-- Witness for claim C10: a container whose h2 has whitespace-only text
yields no product name and is dropped by the loop. -/
theorem empty_name_discarded_witness :
    (extract_product_data "t0" blankNameContainer).product_name = none ∧
    listingLoop (pureStep "t0") "u" [blankNameContainer]
      = listingLoop (pureStep "t0") "u" [] := by
  have h := empty_name_discarded "t0" blankNameContainer blankH2 rfl (by decide)
  exact ⟨h.1, h.2 "u" []⟩

/-- All non-timestamp fields of the loop output are independent of the
timestamp argument. -/
lemma listingLoop_map_sans (url ts₁ ts₂ : String) (l : List Node) :
    (listingLoop (pureStep ts₁) url l).map sansTimestamp
      = (listingLoop (pureStep ts₂) url l).map sansTimestamp := by
  induction l with
  | nil => rfl
  | cons c cs ih =>
    rw [listingLoop_cons, listingLoop_cons]
    simp only [pureStep]
    rw [extract_ts ts₁ ts₂ c]
    dsimp only
    by_cases ht : truthyStr (extract_product_data ts₂ c).product_name = true
    · rw [if_pos ht, if_pos ht]
      simp only [List.map_cons]
      rw [ih]
      rfl
    · rw [if_neg ht, if_neg ht]
      exact ih

/-- Claim C1: for a fixed document tree and source identifier, two runs of
the listing extraction yield identical record sequences field for field,
excluding only the timestamp. -/
theorem extract_listing_deterministic (doc : Node) (url ts₁ ts₂ : String) :
    (extract_listing doc url ts₁).map sansTimestamp
      = (extract_listing doc url ts₂).map sansTimestamp := by
  unfold extract_listing
  exact listingLoop_map_sans url ts₁ ts₂ (find_product_containers doc)

end Scraper
